import Mathlib

/-!
Verification of the hashing utility demo (Streamlit app `app.py` plus its
hashing core `hash_utils`).

The UI layer `src/app.py` is embedded directly from its source: secret
selection, the base64-or-UTF-8 key decoding, and the per-section button
handlers become Lean functions over explicit inputs.  The hashing core
`hash_utils` is imported by `app.py` but its source file is not part of the
repository snapshot, so its operations (`hash_text`, `hash_file_chunked`,
`with_salt`, `with_pepper`, `hmac_text`, `compare_hashes`) are modelled from
the specification, with each such definition marked in its doc comment.

Bytes are modelled as natural numbers below 256 in lists; machine hashing
primitives (the `hashlib` constructions) are external collaborators and are
abstracted as a `Platform` giving, per algorithm name, a digest function and
an HMAC block size.
-/

namespace DemoHash

/-! ## Encoding utilities -/

/-- Hex character for a value below 16, lowercase as Python `hexdigest`. -/
def hexDigit (n : Nat) : Char :=
  if n < 10 then Char.ofNat (48 + n) else Char.ofNat (87 + n)

/-- Lowercase hexadecimal rendering of a byte list, two characters per byte. -/
def toHex (bs : List Nat) : String :=
  String.mk (List.flatten (bs.map (fun b => [hexDigit (b / 16), hexDigit (b % 16)])))

/-- Value of one hexadecimal digit character, case-insensitive. -/
def hexVal (c : Char) : Option Nat :=
  if 48 ≤ c.toNat ∧ c.toNat ≤ 57 then some (c.toNat - 48)
  else if 97 ≤ c.toNat ∧ c.toNat ≤ 102 then some (c.toNat - 87)
  else if 65 ≤ c.toNat ∧ c.toNat ≤ 70 then some (c.toNat - 55)
  else none

/-- Decode a hex string two digits per byte; `none` on odd length or a
non-hex character, mirroring `bytes.fromhex` failure. -/
def hexDecode : List Char → Option (List Nat)
  | [] => some []
  | [_] => none
  | a :: b :: rest =>
    match hexVal a, hexVal b, hexDecode rest with
    | some x, some y, some tl => some ((x * 16 + y) :: tl)
    | _, _, _ => none

/-- UTF-8 bytes of one character (standard 1-to-4 byte encoding). -/
def utf8Char (c : Char) : List Nat :=
  let n := c.toNat
  if n < 128 then [n]
  else if n < 2048 then [192 + n / 64, 128 + n % 64]
  else if n < 65536 then [224 + n / 4096, 128 + (n / 64) % 64, 128 + n % 64]
  else [240 + n / 262144, 128 + (n / 4096) % 64, 128 + (n / 64) % 64, 128 + n % 64]

/-- UTF-8 byte encoding of a string, as Python `str.encode` with no errors. -/
def utf8 (s : String) : List Nat :=
  List.flatten (s.toList.map utf8Char)

/-- Code points CPython `str.isspace` accepts (White_Space property plus the
bidirectional separators in the C0 range). -/
def pyWhitespace : List Nat :=
  [9, 10, 11, 12, 13, 28, 29, 30, 31, 32, 133, 160, 5760,
   8192, 8193, 8194, 8195, 8196, 8197, 8198, 8199, 8200, 8201, 8202,
   8232, 8233, 8239, 8287, 12288]

/-- Python `str.isspace` on a single character. -/
def pyIsSpace (c : Char) : Bool :=
  pyWhitespace.contains c.toNat

/-- Python `str.strip()`: removes leading and trailing whitespace. -/
def pyStrip (s : String) : String :=
  String.mk (((s.toList.dropWhile pyIsSpace).reverse.dropWhile pyIsSpace).reverse)

/-! ## Base64 decoding as performed by `base64.b64decode` on a `str`

CPython first ASCII-encodes the string (failure for any character above
127), then runs `binascii.a2b_base64` in non-strict mode: characters outside
the base64 alphabet are skipped; an `=` once at least two data characters of
the current quad are present and completing the quad ends decoding
successfully; a final incomplete quad is an error. -/

/-- Six-bit value of a base64 alphabet character, `none` for other bytes. -/
def b64val (c : Nat) : Option Nat :=
  if 65 ≤ c ∧ c ≤ 90 then some (c - 65)
  else if 97 ≤ c ∧ c ≤ 122 then some (c - 71)
  else if 48 ≤ c ∧ c ≤ 57 then some (c + 4)
  else if c = 43 then some 62
  else if c = 47 then some 63
  else none

/-- Main loop of `binascii.a2b_base64` (non-strict): state is the position
inside the current quad, the pending bits, the count of pad characters seen
since the last data character, and the reversed output. -/
def b64loop : List Nat → Nat → Nat → Nat → List Nat → Option (List Nat)
  | [], quadPos, _, _, out => if quadPos = 0 then some out.reverse else none
  | c :: rest, quadPos, leftchar, pads, out =>
    if c = 61 then
      if 2 ≤ quadPos ∧ 4 ≤ quadPos + (pads + 1) then some out.reverse
      else b64loop rest quadPos leftchar (if 2 ≤ quadPos then pads + 1 else pads) out
    else
      match b64val c with
      | none => b64loop rest quadPos leftchar pads out
      | some v =>
        match quadPos with
        | 0 => b64loop rest 1 v 0 out
        | 1 => b64loop rest 2 (v % 16) 0 ((leftchar * 4 + v / 16) :: out)
        | 2 => b64loop rest 3 (v % 4) 0 ((leftchar * 16 + v / 4) :: out)
        | _ => b64loop rest 0 0 0 ((leftchar * 64 + v) :: out)

/-- Python `base64.b64decode` applied to a `str`: `none` models a raised
exception (non-ASCII input or a final incomplete quad). -/
def b64decode (s : String) : Option (List Nat) :=
  if s.toList.all (fun c => c.toNat < 128) then
    b64loop (s.toList.map Char.toNat) 0 0 0 []
  else
    none

/-! ## The hashing core, modelled from the specification -/

/-- Error kinds of the core, from the error-handling design. -/
inductive HashErr where
  | unsupportedAlgorithm
  | invalidArgument
  | ioError
deriving DecidableEq, Repr

/-- External hashing primitive for one algorithm: the digest function
supplied by `hashlib` and the block size HMAC pads keys to. -/
structure HashFun where
  digest : List Nat → List Nat
  blockSize : Nat

/-- Assignment of a hashing primitive to each algorithm name; the concrete
primitives live outside the repository (`hashlib`), so core operations are
parametric in this assignment. -/
def Platform := String → HashFun

/-- Closed set of algorithm identifiers the registry resolves. -/
def supportedAlgs : List String := ["sha1", "sha256", "sha512", "blake2b"]

/-- Modelled from the spec: `resolve` of the Algorithm Registry, failing
with `UnsupportedAlgorithm` outside the closed set (spec section 4.1);
the concrete constructor comes from the platform. -/
def resolve (P : Platform) (a : String) : Except HashErr HashFun :=
  if a ∈ supportedAlgs then Except.ok (P a) else Except.error HashErr.unsupportedAlgorithm

/-- Default algorithm exported by the core next to the operations. -/
def DEFAULT_ALG : String := "sha256"

/-- Default chunk size for streamed digesting. -/
def CHUNK_SIZE : Nat := 8192

/-- Default generated salt length in bytes (spec: default 16). -/
def DEFAULT_SALT_LEN : Nat := 16

/-- Modelled from the spec: `hash_text` of the Digest Engine (spec section
4.2): UTF-8 encode, one full update, hex digest. -/
def hash_text (P : Platform) (text : String) (alg : String) : Except HashErr String :=
  match resolve P alg with
  | Except.error e => Except.error e
  | Except.ok h => Except.ok (toHex (h.digest (utf8 text)))

/-- Split a byte list into chunks of `c` bytes (`0 < c`), as the sequential
bounded reads of a stream until exhaustion. -/
def readChunks (c : Nat) (hc : 0 < c) : List Nat → List (List Nat)
  | [] => []
  | x :: xs => (x :: xs).take c :: readChunks c hc ((x :: xs).drop c)
termination_by l => l.length
decreasing_by
  simp [List.length_drop]
  omega

/-- Modelled from the spec: `hash_file_chunked` of the Digest Engine (spec
`hash_stream`, section 4.2): reads chunks of `chunkSize` bytes and feeds
each to an incremental update, which digests their concatenation; fails
with `InvalidArgument` unless `chunkSize` is positive. -/
def hash_file_chunked (P : Platform) (data : List Nat) (alg : String)
    (chunkSize : Nat) : Except HashErr String :=
  match resolve P alg with
  | Except.error e => Except.error e
  | Except.ok h =>
    if hpos : 0 < chunkSize then
      Except.ok (toHex (h.digest (List.flatten (readChunks chunkSize hpos data))))
    else
      Except.error HashErr.invalidArgument

/-- Modelled from the spec: `with_salt` of the Salt Module (spec sections
4.3): an absent salt is generated at the configured default length from the
random source `rand`, a present one is hex-decoded (`InvalidArgument` on
malformed hex); the digest is over `salt_bytes ++ text_bytes`; both the
salt hex and the digest hex are returned. -/
def with_salt (P : Platform) (text : String) (salt_hex : Option String)
    (alg : String) (rand : Nat → List Nat) : Except HashErr (String × String) :=
  match resolve P alg with
  | Except.error e => Except.error e
  | Except.ok h =>
    match salt_hex with
    | none =>
      let salt := rand DEFAULT_SALT_LEN
      Except.ok (toHex salt, toHex (h.digest (salt ++ utf8 text)))
    | some s =>
      match hexDecode s.toList with
      | none => Except.error HashErr.invalidArgument
      | some salt => Except.ok (toHex salt, toHex (h.digest (salt ++ utf8 text)))

/-- Modelled from the spec: `with_pepper` of the Pepper Module (spec section
4.4): fails with `InvalidArgument` if the pepper is empty — a caller-visible
precondition checked before anything else — and otherwise digests
`pepper_bytes ++ text_bytes` under the resolved algorithm. -/
def with_pepper (P : Platform) (text : String) (pepper : String)
    (alg : String) : Except HashErr String :=
  if pepper = "" then Except.error HashErr.invalidArgument
  else
    match resolve P alg with
    | Except.error e => Except.error e
    | Except.ok h => Except.ok (toHex (h.digest (utf8 pepper ++ utf8 text)))

/-- Modelled from the spec: `hmac_text` of the MAC Module (spec section
4.5): fails with `InvalidArgument` if the key is empty, then computes the
standard two-pass HMAC construction with inner pad `0x36` and outer pad
`0x5c` over keys padded (after digesting over-long keys) to the block size. -/
def hmac_text (P : Platform) (text : String) (key : List Nat)
    (alg : String) : Except HashErr String :=
  if key = [] then Except.error HashErr.invalidArgument
  else
    match resolve P alg with
    | Except.error e => Except.error e
    | Except.ok h =>
      let k0 := if h.blockSize < key.length then h.digest key else key
      let k := k0 ++ List.replicate (h.blockSize - k0.length) 0
      let ipad := k.map (fun b => Nat.xor b 54)
      let opad := k.map (fun b => Nat.xor b 92)
      Except.ok (toHex (h.digest (opad ++ h.digest (ipad ++ utf8 text))))

/-! ## Constant-time comparison, modelled from the specification -/

/-- Scan loop of the comparator: accumulates the bitwise OR of the XOR of
corresponding character codes, one iteration per character position of the
shorter input. -/
def ctLoop : List Char → List Char → Nat → Nat
  | [], _, acc => acc
  | _ :: _, [], acc => acc
  | x :: xs, y :: ys, acc => ctLoop xs ys (acc ||| (x.toNat ^^^ y.toNat))

/-- Iteration count of `ctLoop` on the same inputs: the cost model for the
comparator, one unit per loop iteration. -/
def ctSteps : List Char → List Char → Nat
  | [], _ => 0
  | _ :: _, [] => 0
  | _ :: xs, _ :: ys => ctSteps xs ys + 1

/-- Modelled from the spec: `compare_hashes` of the Comparator (spec section
4.6): equal lengths are required, then the full-length XOR/OR scan decides
equality without branching on individual characters. -/
def compare_hashes (a b : String) : Bool :=
  if a.toList.length = b.toList.length then
    decide (ctLoop a.toList b.toList 0 = 0)
  else
    false

/-- Cost of one `compare_hashes` call in loop iterations. -/
def compareSteps (a b : String) : Nat :=
  ctSteps a.toList b.toList

/-! ## The application layer, embedded from `src/app.py`

Streamlit widgets become explicit inputs: `st.secrets.get` results are
`Option String` (absent key gives `none`), text inputs are `String`
(empty when the user typed nothing), and each button handler becomes a
function returning an outcome that records which message was shown or which
core call was made with which arguments. -/

/-- Algorithm choices offered by the selectbox (`app.py` line 71). -/
def algorithms : List String := ["sha256", "sha1", "sha512", "blake2b"]

/-- Effective pepper (`app.py` line 58): the secret when present, else the
demo field subjected to Python truthiness (`pepper_demo or None`). -/
def pepper_value (pepper_secret : Option String) (pepper_demo : String) : Option String :=
  match pepper_secret with
  | some s => some s
  | none => if pepper_demo = "" then none else some pepper_demo

/-- Effective HMAC key string (`app.py` line 59), same selection rule. -/
def hmac_key_value (hmac_key_secret : Option String) (hmac_key_demo : String) : Option String :=
  match hmac_key_secret with
  | some s => some s
  | none => if hmac_key_demo = "" then none else some hmac_key_demo

/-- Key decoding of `app.py` lines 62-66: try `base64.b64decode`, and on
any exception fall back to the UTF-8 bytes of the literal string. -/
def hmacKeyBytesOf (v : String) : List Nat :=
  match b64decode v with
  | some bs => bs
  | none => utf8 v

/-- Effective HMAC key bytes (`app.py` lines 60-68): `none` when no key
string is available at all. -/
def hmac_key_bytes (hmac_key_secret : Option String) (hmac_key_demo : String) :
    Option (List Nat) :=
  (hmac_key_value hmac_key_secret hmac_key_demo).map hmacKeyBytesOf

/-- Outcome of the pepper button handler. -/
inductive PepperOutcome where
  | warnNoText
  | errNoPepper
  | called (pepper : String) (result : Except HashErr String)
deriving Repr

/-- Pepper button handler (`app.py` lines 129-136): warn on empty text,
error when no pepper value exists, otherwise call `with_pepper` with the
effective pepper value. -/
def pepperSection (P : Platform) (pepper_secret : Option String) (pepper_demo : String)
    (text_input : String) (alg : String) : PepperOutcome :=
  if text_input = "" then PepperOutcome.warnNoText
  else
    match pepper_value pepper_secret pepper_demo with
    | none => PepperOutcome.errNoPepper
    | some p => PepperOutcome.called p (with_pepper P text_input p alg)

/-- Outcome of the HMAC button handler. -/
inductive HmacOutcome where
  | warnNoText
  | errNoKey
  | called (key : List Nat) (result : Except HashErr String)
deriving Repr

/-- HMAC button handler (`app.py` lines 141-148): warn on empty text, error
when no key bytes exist, otherwise call `hmac_text` with the decoded key. -/
def hmacSection (P : Platform) (hmac_key_secret : Option String) (hmac_key_demo : String)
    (text_input : String) (alg : String) : HmacOutcome :=
  if text_input = "" then HmacOutcome.warnNoText
  else
    match hmac_key_bytes hmac_key_secret hmac_key_demo with
    | none => HmacOutcome.errNoKey
    | some k => HmacOutcome.called k (hmac_text P text_input k alg)

/-- Salt argument passed to the core (`app.py` line 121:
`salt = salt_text if salt_text else None`, Python truthiness on the
string). -/
def saltArgOf (salt_text : String) : Option String :=
  if salt_text = "" then none else some salt_text

/-- Outcome of the salting button handler, recording the salt argument the
core call received. -/
inductive SaltOutcome where
  | warnNoText
  | called (salt_arg : Option String) (result : Except HashErr (String × String))
deriving Repr

/-- Salting button handler (`app.py` lines 117-122).  The widget value
`salt_len` (line 114, bounds 4..64, default 16) is in scope exactly as in
the source, which never passes it to `with_salt`. -/
def saltSection (P : Platform) (rand : Nat → List Nat) (salt_len : Nat)
    (salt_text : String) (text_input : String) (alg : String) : SaltOutcome :=
  if text_input = "" then SaltOutcome.warnNoText
  else SaltOutcome.called (saltArgOf salt_text)
    (with_salt P text_input (saltArgOf salt_text) alg rand)

/-- Compare button handler (`app.py` lines 157-165): warn (`none`) unless
both fields are non-empty, else compare after `strip()` on both sides. -/
def compareSection (h1 h2 : String) : Option Bool :=
  if h1 = "" ∨ h2 = "" then none
  else some (compare_hashes (pyStrip h1) (pyStrip h2))

/-- Degenerate concrete platform used to instantiate universally quantified
statements: every algorithm digests to the empty byte list at block size 64. -/
def constPlatform : Platform :=
  fun _ => { digest := fun _ => [], blockSize := 64 }

/-- Deterministic stand-in for the random source in concrete instances:
`n` zero bytes. -/
def zeroRand : Nat → List Nat :=
  fun n => List.replicate n 0

/-! ## Helper lemmas -/

/-- Characters with equal code points are equal. -/
theorem char_toNat_inj {a b : Char} (h : a.toNat = b.toNat) : a = b := by
  apply Char.eq_of_val_eq
  apply UInt32.eq_of_toBitVec_eq
  apply BitVec.eq_of_toNat_eq
  exact h

/-- Bitwise OR of naturals is zero exactly when both are. -/
theorem lor_eq_zero_iff {x y : Nat} : x ||| y = 0 ↔ x = 0 ∧ y = 0 := by
  constructor
  · intro h
    constructor
    · apply Nat.eq_of_testBit_eq
      intro i
      have h2 := congrArg (fun n => Nat.testBit n i) h
      simp [Nat.testBit_or] at h2
      simp [h2.1]
    · apply Nat.eq_of_testBit_eq
      intro i
      have h2 := congrArg (fun n => Nat.testBit n i) h
      simp [Nat.testBit_or] at h2
      simp [h2.2]
  · rintro ⟨rfl, rfl⟩
    rfl

/-- XOR of two character codes vanishes exactly on equal characters. -/
theorem char_xor_eq_zero {x y : Char} : x.toNat ^^^ y.toNat = 0 ↔ x = y := by
  rw [Nat.xor_eq_zero]
  exact ⟨char_toNat_inj, fun h => by rw [h]⟩

/-- The comparator loop folds its accumulator by OR on the left. -/
theorem ctLoop_acc : ∀ (xs ys : List Char) (acc : Nat),
    ctLoop xs ys acc = acc ||| ctLoop xs ys 0
  | [], ys, acc => by cases ys <;> simp [ctLoop]
  | _ :: _, [], acc => by simp [ctLoop]
  | x :: xs, y :: ys, acc => by
    simp only [ctLoop]
    rw [ctLoop_acc xs ys (acc ||| (x.toNat ^^^ y.toNat)),
        ctLoop_acc xs ys (0 ||| (x.toNat ^^^ y.toNat))]
    simp [Nat.lor_assoc]

/-- On equal-length inputs the comparator loop vanishes exactly on equal
character lists. -/
theorem ctLoop_eq_zero_iff : ∀ (xs ys : List Char), xs.length = ys.length →
    (ctLoop xs ys 0 = 0 ↔ xs = ys)
  | [], [], _ => by simp [ctLoop]
  | [], _ :: _, h => by simp at h
  | _ :: _, [], h => by simp at h
  | x :: xs, y :: ys, h => by
    have ih := ctLoop_eq_zero_iff xs ys (by simpa using h)
    simp only [ctLoop]
    rw [ctLoop_acc]
    constructor
    · intro h0
      rcases lor_eq_zero_iff.mp h0 with ⟨h1, h2⟩
      rcases lor_eq_zero_iff.mp h1 with ⟨_, h3⟩
      rw [char_xor_eq_zero.mp h3, ih.mp h2]
    · intro h0
      injection h0 with hx hxs
      subst hx
      subst hxs
      simp [Nat.xor_self, ih.mpr rfl]

/-- The comparator loop runs one iteration per position of the shorter
input, independent of the characters themselves. -/
theorem ctSteps_eq_min : ∀ xs ys : List Char, ctSteps xs ys = min xs.length ys.length
  | [], ys => by simp [ctSteps]
  | _ :: _, [] => by simp [ctSteps]
  | _ :: xs, _ :: ys => by
    have ih := ctSteps_eq_min xs ys
    simp [ctSteps, ih]
    omega

/-- Strings with equal character lists are equal. -/
theorem string_eq_of_toList_eq {s t : String} (h : s.toList = t.toList) : s = t := by
  cases s
  cases t
  simp_all [String.toList]

/-- Modelled comparator decides exact character equality. -/
theorem compare_hashes_iff (a b : String) : compare_hashes a b = true ↔ a = b := by
  unfold compare_hashes
  by_cases h : a.toList.length = b.toList.length
  · rw [if_pos h]
    simp only [decide_eq_true_eq]
    rw [ctLoop_eq_zero_iff _ _ h]
    exact ⟨string_eq_of_toList_eq, fun he => by rw [he]⟩
  · rw [if_neg h]
    constructor
    · intro hf
      exact absurd hf (by simp)
    · intro he
      subst he
      exact absurd rfl h

/-- Length of the flattened two-digit blocks of `toHex`. -/
theorem flattenPairs_length : ∀ bs : List Nat,
    (List.flatten (bs.map (fun b => [hexDigit (b / 16), hexDigit (b % 16)]))).length
      = 2 * bs.length
  | [] => rfl
  | b :: bs => by
    simp only [List.map_cons, List.flatten_cons, List.length_append,
      flattenPairs_length bs, List.length_cons, List.length_nil]
    omega

/-- Hex rendering has two characters per byte. -/
theorem toHex_length (bs : List Nat) : (toHex bs).length = 2 * bs.length := by
  show (List.flatten (bs.map (fun b => [hexDigit (b / 16), hexDigit (b % 16)]))).length
    = 2 * bs.length
  exact flattenPairs_length bs

/-! ## Claims -/

/-- Claim C1: `compare_hashes` returns true exactly on character-for-character
equal (case-sensitive) strings, and in particular returns false whenever the
two lengths differ. -/
theorem compare_hashes_character_equality (a b : String) :
    (compare_hashes a b = true ↔ a = b) ∧
    (a.toList.length ≠ b.toList.length → compare_hashes a b = false) := by
  refine ⟨compare_hashes_iff a b, fun hne => ?_⟩
  unfold compare_hashes
  rw [if_neg hne]

/-- Witness for C1 at concrete inputs: equal strings compare true, and a
length mismatch compares false. -/
theorem compare_hashes_character_equality_spot :
    compare_hashes "ab" "ab" = true ∧ compare_hashes "ab" "abc" = false :=
  ⟨(compare_hashes_character_equality "ab" "ab").1.mpr rfl,
   (compare_hashes_character_equality "ab" "abc").2 (by decide)⟩

/-- Claim C2: the running cost of `compare_hashes`, counted as iterations of
its scan loop, is a function of the two input lengths alone, so for
equal-length digests it cannot depend on the position of the first differing
character. -/
theorem compareSteps_length_determined (a b a' b' : String)
    (ha : a.toList.length = a'.toList.length)
    (hb : b.toList.length = b'.toList.length) :
    compareSteps a b = compareSteps a' b' := by
  unfold compareSteps
  rw [ctSteps_eq_min, ctSteps_eq_min, ha, hb]

/-- Witness for C2: a pair differing at the last position costs the same as
a pair differing at the first position. -/
theorem compareSteps_length_determined_spot :
    compareSteps "aa" "ab" = compareSteps "ba" "aa" :=
  compareSteps_length_determined "aa" "ab" "ba" "aa" (by decide) (by decide)

/-- Claim C3: the HMAC key bytes the app builds are the base64 decoding of
the key string whenever that decoding succeeds, and the UTF-8 bytes of the
literal string exactly when the decoding raises. -/
theorem hmac_key_base64_fallback (k : String) :
    (∀ bs, b64decode k = some bs → hmacKeyBytesOf k = bs) ∧
    (b64decode k = none → hmacKeyBytesOf k = utf8 k) := by
  constructor
  · intro bs h
    simp [hmacKeyBytesOf, h]
  · intro h
    simp [hmacKeyBytesOf, h]

/-- Witness for C3: the key string decodes from base64 when it is valid
base64 of the bytes of `key`, and falls back to UTF-8 bytes on the literal
`key`, whose three data characters are an invalid final quad. -/
theorem hmac_key_base64_fallback_spot :
    hmacKeyBytesOf "a2V5" = [107, 101, 121] ∧ hmacKeyBytesOf "key" = utf8 "key" :=
  ⟨(hmac_key_base64_fallback "a2V5").1 [107, 101, 121] (by decide),
   (hmac_key_base64_fallback "key").2 (by decide)⟩

/-- Claim C4: on every path of the HMAC handler, whenever `hmac_text` is
invoked with an empty key the call fails with `InvalidArgument`; so
`hmac_text` is never successfully invoked with empty key bytes, including on
the path where the `HMAC_KEY` secret is present but is the empty string
(whose base64 decoding succeeds with empty bytes). -/
theorem hmac_empty_key_invalid_argument (P : Platform) (secret : Option String)
    (demo text alg : String) (k : List Nat) (r : Except HashErr String)
    (hcall : hmacSection P secret demo text alg = HmacOutcome.called k r)
    (hk : k = []) : r = Except.error HashErr.invalidArgument := by
  subst hk
  unfold hmacSection at hcall
  by_cases ht : text = ""
  · rw [if_pos ht] at hcall
    exact absurd hcall (by simp)
  · rw [if_neg ht] at hcall
    cases hkb : hmac_key_bytes secret demo with
    | none =>
      rw [hkb] at hcall
      exact absurd hcall (by simp)
    | some k0 =>
      rw [hkb] at hcall
      have hinj := HmacOutcome.called.inj hcall
      rw [← hinj.2, hinj.1]
      simp [hmac_text]

/-- Witness for C4: with `HMAC_KEY` present as the empty string, the app
invokes `hmac_text` with empty key bytes and the call fails with
`InvalidArgument`. -/
theorem hmac_empty_key_invalid_argument_spot :
    hmacSection constPlatform (some "") "" "x" "sha256"
      = HmacOutcome.called [] (hmac_text constPlatform "x" [] "sha256") ∧
    hmac_text constPlatform "x" [] "sha256" = Except.error HashErr.invalidArgument :=
  ⟨rfl, hmac_empty_key_invalid_argument constPlatform (some "") "" "x" "sha256" [] _ rfl rfl⟩

/-- Claim C5: on every path of the pepper handler, an empty pepper reaching
`with_pepper` fails with `InvalidArgument`, and an absent pepper is reported
to the caller as an error message rather than silently hashed; so
`with_pepper` is never successfully invoked with an empty pepper, including
when the `PEPPER` secret is present but is the empty string. -/
theorem pepper_empty_invalid_argument (P : Platform) (secret : Option String)
    (demo text alg : String) :
    (∀ p r, pepperSection P secret demo text alg = PepperOutcome.called p r →
      p = "" → r = Except.error HashErr.invalidArgument) ∧
    (text ≠ "" → pepper_value secret demo = none →
      pepperSection P secret demo text alg = PepperOutcome.errNoPepper) := by
  constructor
  · intro p r hcall hp
    subst hp
    unfold pepperSection at hcall
    by_cases ht : text = ""
    · rw [if_pos ht] at hcall
      exact absurd hcall (by simp)
    · rw [if_neg ht] at hcall
      cases hpv : pepper_value secret demo with
      | none =>
        rw [hpv] at hcall
        exact absurd hcall (by simp)
      | some p0 =>
        rw [hpv] at hcall
        have hinj := PepperOutcome.called.inj hcall
        rw [← hinj.2, hinj.1]
        simp [with_pepper]
  · intro ht hpv
    unfold pepperSection
    rw [if_neg ht, hpv]

/-- Witness for C5: with `PEPPER` present as the empty string the handler
calls `with_pepper` with an empty pepper and gets `InvalidArgument`; with no
pepper at all the handler reports the missing-pepper error. -/
theorem pepper_empty_invalid_argument_spot :
    pepperSection constPlatform (some "") "" "x" "sha256"
      = PepperOutcome.called "" (with_pepper constPlatform "x" "" "sha256") ∧
    with_pepper constPlatform "x" "" "sha256" = Except.error HashErr.invalidArgument ∧
    pepperSection constPlatform none "" "x" "sha256" = PepperOutcome.errNoPepper :=
  ⟨rfl,
   (pepper_empty_invalid_argument constPlatform (some "") "" "x" "sha256").1 "" _ rfl rfl,
   (pepper_empty_invalid_argument constPlatform none "" "x" "sha256").2 (by decide) rfl⟩

/-- Claim C6 evaluation: the salting handler reads the widget value but
never passes it on, so with the user asking for 32 salt bytes and no
explicit salt, the generated salt still has the default 16 bytes (32 hex
characters), not the requested 32 bytes (64 hex characters). -/
theorem salt_len_not_honored :
    saltSection constPlatform zeroRand 32 "" "abc" "sha256"
      = SaltOutcome.called none
          (Except.ok ("00000000000000000000000000000000", "")) ∧
    "00000000000000000000000000000000".length = 2 * DEFAULT_SALT_LEN ∧
    "00000000000000000000000000000000".length ≠ 2 * 32 :=
  ⟨rfl, by decide, by decide⟩

/-- Claim C7: the salting call receives an explicit optional — `none` when
the salt field is empty, in which case the core generates a salt of the
configured default length — and the empty string itself is never passed as
a generate-for-me sentinel. -/
theorem absent_salt_first_class_optional (P : Platform) (rand : Nat → List Nat)
    (salt_len : Nat) (salt_text text alg : String)
    (hrand : ∀ n, (rand n).length = n) (ht : text ≠ "") (halg : alg ∈ supportedAlgs) :
    saltArgOf salt_text ≠ some "" ∧
    (salt_text = "" →
      saltSection P rand salt_len salt_text text alg
        = SaltOutcome.called none
            (Except.ok (toHex (rand DEFAULT_SALT_LEN),
              toHex ((P alg).digest (rand DEFAULT_SALT_LEN ++ utf8 text)))) ∧
      (toHex (rand DEFAULT_SALT_LEN)).length = 2 * DEFAULT_SALT_LEN) := by
  constructor
  · unfold saltArgOf
    by_cases hs : salt_text = ""
    · rw [if_pos hs]
      simp
    · rw [if_neg hs]
      simp [hs]
  · intro hs
    subst hs
    refine ⟨?_, by rw [toHex_length, hrand]⟩
    simp [saltSection, saltArgOf, with_salt, resolve, ht, halg]

/-- Witness for C7: empty salt field, concrete platform and randomness. -/
theorem absent_salt_first_class_optional_spot :
    saltArgOf "" ≠ some "" ∧
    saltSection constPlatform zeroRand 16 "" "abc" "sha256"
      = SaltOutcome.called none
          (Except.ok (toHex (zeroRand DEFAULT_SALT_LEN),
            toHex ((constPlatform "sha256").digest (zeroRand DEFAULT_SALT_LEN ++ utf8 "abc")))) ∧
    (toHex (zeroRand DEFAULT_SALT_LEN)).length = 2 * DEFAULT_SALT_LEN := by
  have h := absent_salt_first_class_optional constPlatform zeroRand 16 "" "abc" "sha256"
    (fun n => by simp [zeroRand]) (by decide) (by decide)
  exact ⟨h.1, (h.2 rfl).1, (h.2 rfl).2⟩

/-- Claim C8: when a secret is defined its value is exactly what reaches the
core call — the pepper string itself, respectively the decoded bytes of the
key string — independently of whatever sits in the demo field, and demo
values are consulted only when the secret is absent. -/
theorem secret_values_take_precedence (P : Platform) (s demo text alg : String)
    (ht : text ≠ "") :
    pepper_value (some s) demo = some s ∧
    hmac_key_value (some s) demo = some s ∧
    pepperSection P (some s) demo text alg
      = PepperOutcome.called s (with_pepper P text s alg) ∧
    hmacSection P (some s) demo text alg
      = HmacOutcome.called (hmacKeyBytesOf s) (hmac_text P text (hmacKeyBytesOf s) alg) ∧
    pepper_value none demo = (if demo = "" then none else some demo) ∧
    hmac_key_value none demo = (if demo = "" then none else some demo) := by
  refine ⟨rfl, rfl, ?_, ?_, rfl, rfl⟩
  · simp [pepperSection, pepper_value, ht]
  · simp [hmacSection, hmac_key_bytes, hmac_key_value, ht]

/-- Witness for C8: with secrets set to `sec` and an unrelated demo value,
both handlers pass material derived from `sec` alone into the core. -/
theorem secret_values_take_precedence_spot :
    pepperSection constPlatform (some "sec") "demo" "x" "sha256"
      = PepperOutcome.called "sec" (with_pepper constPlatform "x" "sec" "sha256") ∧
    hmacSection constPlatform (some "sec") "demo" "x" "sha256"
      = HmacOutcome.called (hmacKeyBytesOf "sec")
          (hmac_text constPlatform "x" (hmacKeyBytesOf "sec") "sha256") :=
  ⟨(secret_values_take_precedence constPlatform "sec" "demo" "x" "sha256" (by decide)).2.2.1,
   (secret_values_take_precedence constPlatform "sec" "demo" "x" "sha256" (by decide)).2.2.2.1⟩

/-- Claim C9: every selectbox algorithm lies in the registry closed set, so
from the application's calls the `UnsupportedAlgorithm` branch of every core
operation is unreachable. -/
theorem selected_algorithms_supported (a : String) (ha : a ∈ algorithms) (P : Platform) :
    resolve P a = Except.ok (P a) ∧
    (∀ text, hash_text P text a = Except.ok (toHex ((P a).digest (utf8 text)))) ∧
    (∀ data cs, hash_file_chunked P data a cs ≠ Except.error HashErr.unsupportedAlgorithm) ∧
    (∀ text sh rand, with_salt P text sh a rand ≠ Except.error HashErr.unsupportedAlgorithm) ∧
    (∀ text p, with_pepper P text p a ≠ Except.error HashErr.unsupportedAlgorithm) ∧
    (∀ text k, hmac_text P text k a ≠ Except.error HashErr.unsupportedAlgorithm) := by
  have hs : a ∈ supportedAlgs := by
    simp only [algorithms, List.mem_cons, List.not_mem_nil, or_false] at ha
    rcases ha with rfl | rfl | rfl | rfl <;> decide
  have hres : resolve P a = Except.ok (P a) := by simp [resolve, hs]
  refine ⟨hres, fun text => ?_, fun data cs => ?_, fun text sh rand => ?_,
    fun text p => ?_, fun text k => ?_⟩
  · unfold hash_text
    rw [hres]
  · unfold hash_file_chunked
    rw [hres]
    by_cases hcs : 0 < cs <;> simp [hcs]
  · unfold with_salt
    rw [hres]
    cases sh with
    | none => simp
    | some s =>
      cases hd : hexDecode s.data <;> simp [hd]
  · unfold with_pepper
    by_cases hp : p = ""
    · rw [if_pos hp]
      simp
    · rw [if_neg hp, hres]
      simp
  · unfold hmac_text
    by_cases hk : k = []
    · rw [if_pos hk]
      simp
    · rw [if_neg hk, hres]
      simp

/-- Witness for C9 at the first selectbox entry. -/
theorem selected_algorithms_supported_spot :
    resolve constPlatform "sha256" = Except.ok (constPlatform "sha256") ∧
    with_pepper constPlatform "x" "p" "sha256" ≠ Except.error HashErr.unsupportedAlgorithm :=
  ⟨(selected_algorithms_supported "sha256" (by decide) constPlatform).1,
   (selected_algorithms_supported "sha256" (by decide) constPlatform).2.2.2.2.1 "x" "p"⟩

/-- Claim C10: the compare handler strips both inputs first, so the reported
result is the comparison of the trimmed strings, and two non-empty inputs
are reported as matching exactly when their trimmed forms are equal — even
when the inputs as entered are not character-equal. -/
theorem compare_strips_surrounding_whitespace (h1 h2 : String)
    (h1ne : h1 ≠ "") (h2ne : h2 ≠ "") :
    compareSection h1 h2 = some (compare_hashes (pyStrip h1) (pyStrip h2)) ∧
    (compareSection h1 h2 = some true ↔ pyStrip h1 = pyStrip h2) := by
  have hcs : compareSection h1 h2 = some (compare_hashes (pyStrip h1) (pyStrip h2)) := by
    unfold compareSection
    rw [if_neg (by simp [h1ne, h2ne])]
  refine ⟨hcs, ?_⟩
  rw [hcs]
  constructor
  · intro h
    have heq : compare_hashes (pyStrip h1) (pyStrip h2) = true := by injection h
    exact (compare_hashes_iff _ _).mp heq
  · intro h
    rw [(compare_hashes_iff _ _).mpr h]

/-- Witness for C10: two inputs differing only in surrounding whitespace are
not equal as entered yet are reported as matching. -/
theorem compare_strips_surrounding_whitespace_spot :
    (" abc" : String) ≠ "abc " ∧ compareSection " abc" "abc " = some true :=
  ⟨by decide,
   (compare_strips_surrounding_whitespace " abc" "abc " (by decide) (by decide)).2.mpr
     (by decide)⟩

end DemoHash
